import Mathlib

set_option maxRecDepth 100000

/-!
Shallow embedding of the secure local-file management core of excaliapp
(src-tauri/src/security.rs and src-tauri/src/lib.rs).

Paths are modelled as plain strings with components separated by a slash.
The filesystem is modelled as a partial map from path strings to file
contents, together with a predicate marking which paths are directories.
Each fallible OS call made by an operation (canonicalize, read, write,
remove) is given its outcome by an explicit oracle argument, so that the
error-handling branches of the code become reachable and provable:
a successful write may persist bytes different from the requested ones
(that is exactly the fault the verify-after-write steps of the code are
designed to catch), while a successful read returns the bytes currently
stored in the filesystem map.
-/

/-- The filesystem contents: path string to file bytes, `none` = no file. -/
def Fs : Type := String → Option String

/-- Point update of the filesystem map (`none` deletes the entry). -/
def updateFs (fs : Fs) (p : String) (v : Option String) : Fs :=
  fun q => if q = p then v else fs q

/-- Model of `Path::exists`: a file or a directory is present at `p`. -/
def fsExists (fs : Fs) (dirs : String → Bool) (p : String) : Bool :=
  (fs p).isSome || dirs p

/- ### String utilities (structural, kernel-reducible) -/

/-- Split a character list at every occurrence of the separator character. -/
def splitOnSep (sep : Char) : List Char → List (List Char)
  | [] => [[]]
  | c :: cs =>
    match splitOnSep sep cs with
    | [] => if c = sep then [[], [c]] else [[c]]
    | h :: t => if c = sep then [] :: h :: t else (c :: h) :: t

/-- Join strings with the given separator, inverse of splitting. -/
def joinWithSep (sep : String) : List String → String
  | [] => ""
  | [s] => s
  | s :: rest => s ++ sep ++ joinWithSep sep rest

/-- Whether `pat` occurs as a contiguous run inside `s` (model of Rust
`str::contains` with a string pattern, i.e. substring search). -/
def infixAux (pat : List Char) : List Char → Bool
  | [] => pat.isEmpty
  | c :: cs => pat.isPrefixOf (c :: cs) || infixAux pat cs

/-- Substring test on strings. -/
def containsSub (s pat : String) : Bool := infixAux pat.data s.data

/-- One pass of non-overlapping left-to-right replacement, with fuel
bounded by the length of the scanned list (each step consumes at least
one character when the pattern is non-empty). -/
def replaceAux (pat rep : List Char) : Nat → List Char → List Char
  | _, [] => []
  | 0, s => s
  | fuel + 1, c :: cs =>
    if pat ≠ [] ∧ pat.isPrefixOf (c :: cs) then
      rep ++ replaceAux pat rep fuel ((c :: cs).drop pat.length)
    else
      c :: replaceAux pat rep fuel cs

/-- Model of Rust `str::replace`: replace every non-overlapping
occurrence of `pat` in `s` by `rep`, scanning left to right. -/
def strReplace (s pat rep : String) : String :=
  if pat.data = [] then s
  else ⟨replaceAux pat.data rep.data s.data.length s.data⟩

/-- Suffix test on character lists. -/
def isSuffixOfChars (pat s : List Char) : Bool :=
  pat.reverse.isPrefixOf s.reverse

/-- Suffix test on strings (model of Rust `str::ends_with`). -/
def strEndsWith (s pat : String) : Bool := isSuffixOfChars pat.data s.data

/-- Repeatedly strip the suffix `pat` (model of Rust
`str::trim_end_matches`), fuel bounded by the string length. -/
def trimEndAux (pat : List Char) : Nat → List Char → List Char
  | 0, s => s
  | fuel + 1, s =>
    if pat.isEmpty then s
    else if isSuffixOfChars pat s then
      trimEndAux pat fuel (s.take (s.length - pat.length))
    else s

/-- Repeatedly strip a trailing occurrence of `pat` from `s`. -/
def trimEndMatches (s pat : String) : String :=
  ⟨trimEndAux pat.data s.data.length s.data⟩

/-- Byte/code-point lexicographic comparison on character lists, the
order Rust uses when comparing `String`s with `cmp`. -/
def strLeb : List Char → List Char → Bool
  | [], _ => true
  | _ :: _, [] => false
  | a :: as, b :: bs =>
    if a.toNat < b.toNat then true
    else if b.toNat < a.toNat then false
    else strLeb as bs

/-- Decimal rendering of a natural number (fuel-bounded, total). -/
def natToStrAux : Nat → Nat → List Char
  | 0, _ => []
  | fuel + 1, n =>
    if n < 10 then [Nat.digitChar n]
    else natToStrAux fuel (n / 10) ++ [Nat.digitChar (n % 10)]

/-- Decimal rendering of a natural number. -/
def natToStr (n : Nat) : String := ⟨natToStrAux (n + 1) n⟩

/- ### Path manipulation (model of std::path on slash-separated strings) -/

/-- The slash-separated components of a path string. -/
def slashParts (p : String) : List String :=
  (splitOnSep '/' p.data).map (fun l => (⟨l⟩ : String))

/-- Model of `Path::join` for a separator-free file name. -/
def pathJoin (base name : String) : String :=
  if base = "" then name else base ++ "/" ++ name

/-- Model of `Path::parent`: drop the last component. -/
def parentDir (p : String) : Option String :=
  match slashParts p with
  | [] => none
  | [_] => none
  | parts => some (joinWithSep "/" parts.dropLast)

/-- Model of `Path::file_name`: the last component, if non-empty. -/
def fileName (p : String) : Option String :=
  match (slashParts p).getLast? with
  | none => none
  | some last => if last = "" then none else some last

/-- Split a file name into Rust `file_stem` and `extension`: the
extension is the portion after the final dot, absent when there is no
embedded dot or when the name is a dot-file with no further dot. -/
def extSplit (name : String) : String × Option String :=
  let parts := (splitOnSep '.' name.data).map (fun l => (⟨l⟩ : String))
  match parts with
  | [] => (name, none)
  | [_] => (name, none)
  | first :: restParts =>
    if first = "" ∧ restParts.length = 1 then (name, none)
    else (joinWithSep "." (first :: restParts).dropLast,
          some ((first :: restParts).getLastD ""))

/-- Model of `Path::extension`. -/
def extension (p : String) : Option String :=
  match fileName p with
  | none => none
  | some n => (extSplit n).2

/-- Model of `Path::with_extension`: replace the extension of the last
component. -/
def with_extension (p ext : String) : String :=
  match slashParts p with
  | [] => p
  | parts =>
    let name := parts.getLastD ""
    joinWithSep "/" (parts.dropLast ++ [(extSplit name).1 ++ "." ++ ext])

/- ### security.rs -/

/-- Model of `security::validate_path`. The canonicalization performed
by the OS (symlink resolution, dot-segment collapsing) is supplied by
the oracle `canon`; `none` means `Path::canonicalize` failed. The body
follows the source: canonicalize, optional sandbox prefix check with
`Path::starts_with` (component-wise), then a substring scan of the
canonical path string for the two suspicious patterns. -/
def validate_path (canon : String → Option String) (path : String)
    (allowed_base : Option String) : Except String String :=
  match canon path with
  | none => .error "Failed to canonicalize path: io error"
  | some c =>
    match allowed_base with
    | none =>
      if containsSub c ".." || containsSub c "~" then
        .error "Path contains suspicious patterns"
      else .ok c
    | some b =>
      match canon b with
      | none => .error "Failed to canonicalize base path: io error"
      | some cb =>
        if (slashParts cb).isPrefixOf (slashParts c) = false then
          .error "Path traversal detected: path is outside allowed directory"
        else if containsSub c ".." || containsSub c "~" then
          .error "Path contains suspicious patterns"
        else .ok c

/-- Model of `security::validate_excalidraw_file`. -/
def validate_excalidraw_file (p : String) : Except String Unit :=
  match extension p with
  | some e =>
    if e = "excalidraw" then .ok ()
    else .error ("Invalid file extension: expected .excalidraw, got ." ++ e)
  | none => .error "File has no extension"

/-- JSON values as produced by serde_json (numbers restricted to
integers; no claim depends on non-integer numbers). -/
inductive Json where
  | null : Json
  | bool (b : Bool) : Json
  | num (n : Int) : Json
  | str (s : String) : Json
  | arr (xs : List Json) : Json
  | obj (fields : List (String × Json)) : Json

/-- Comparison of a JSON value against a string literal (model of the
serde_json `PartialEq<str>` used by `t == "excalidraw"`). -/
def jsonIsStr : Json → String → Bool
  | .str s, t => s = t
  | _, _ => false

/-- Lookup of a key in a JSON object (model of serde_json `Map::get`). -/
def jsonGet : List (String × Json) → String → Option Json
  | [], _ => none
  | (k, v) :: rest, key => if k = key then some v else jsonGet rest key

/-- Model of `security::validate_excalidraw_content`, applied to the
result of the serde_json parse of the content (`none` = parse error).
The three field checks run in the fixed source order: type, version,
elements. -/
def validate_excalidraw_content (parsed : Option Json) : Except String Unit :=
  match parsed with
  | none => .error "Invalid JSON: parse error"
  | some j =>
    match j with
    | .obj fields =>
      (match jsonGet fields "type" with
       | some t =>
         if jsonIsStr t "excalidraw" then
           (match jsonGet fields "version" with
            | some (Json.num _) =>
              (match jsonGet fields "elements" with
               | some (Json.arr _) => .ok ()
               | some _ => .error "Elements field must be an array"
               | none => .error "Missing required elements field")
            | some _ => .error "Version field must be a number"
            | none => .error "Missing required version field")
         else .error "Invalid type field: expected excalidraw"
       | none => .error "Missing required type field")
    | _ => .error "Content is not a JSON object"

/-- The file-name sanitization of `security::safe_path_join`: replace
slashes, backslashes and double-dot runs by underscores. -/
def sanitizeName (n : String) : String :=
  strReplace (strReplace (strReplace n "/" "_") "\\" "_") ".." "_"

/-- Model of `security::safe_path_join`. -/
def safe_path_join (base file_name : String) : Except String String :=
  let clean := sanitizeName file_name
  if clean = "" then .error "Invalid filename"
  else .ok (pathJoin base clean)

/- ### TreeScanner (lib.rs: collect_excalidraw_files_recursive, build_file_tree) -/

/-- A directory listing as observed through `fs::read_dir`: a sequence
of entries in iteration order, where each subdirectory carries either
its own listing or the error with which reading it failed. -/
inductive Entries where
  | nil : Entries
  | consFile (name : String) (rest : Entries) : Entries
  | consDirOk (name : String) (contents : Entries) (rest : Entries) : Entries
  | consDirErr (name : String) (err : String) (rest : Entries) : Entries

/-- Model of the `ExcalidrawFile` record. -/
structure ExcalidrawFile where
  name : String
  path : String
  modified : Bool

/-- Model of the recursive `FileTreeNode` record. -/
inductive FileTreeNode where
  | mk (name : String) (path : String) (is_directory : Bool)
       (modified : Bool) (children : Option (List FileTreeNode))

/-- Name of a tree node. -/
def FileTreeNode.name : FileTreeNode → String
  | .mk n _ _ _ _ => n

/-- Path of a tree node. -/
def FileTreeNode.path : FileTreeNode → String
  | .mk _ p _ _ _ => p

/-- Directory flag of a tree node. -/
def FileTreeNode.isDir : FileTreeNode → Bool
  | .mk _ _ d _ _ => d

/-- Children of a tree node. -/
def FileTreeNode.children : FileTreeNode → Option (List FileTreeNode)
  | .mk _ _ _ _ c => c

/-- The sort comparator of `build_file_tree` and `get_file_tree`:
directories before files, then name ascending. `nodeLE a b` is true
when the comparator does not order `a` strictly after `b`. -/
def nodeLE (a b : FileTreeNode) : Bool :=
  match a.isDir, b.isDir with
  | true, false => true
  | false, true => false
  | _, _ => strLeb a.name.data b.name.data

/-- Stable insertion used by the sort. -/
def insertNode (x : FileTreeNode) : List FileTreeNode → List FileTreeNode
  | [] => [x]
  | y :: ys => if nodeLE y x then y :: insertNode x ys else x :: y :: ys

/-- Stable sort with the node comparator (same result as the stable
`sort_by` of the source for this total preorder). -/
def sortNodes : List FileTreeNode → List FileTreeNode
  | [] => []
  | x :: xs => insertNode x (sortNodes xs)

/-- Model of `collect_excalidraw_files_recursive`: walk the listing,
collect every file whose extension is `excalidraw`; a failed
`read_dir` on any reached subdirectory propagates its error with `?`,
aborting the whole walk. -/
def collect_excalidraw_files (base : String) : Entries → Except String (List ExcalidrawFile)
  | .nil => .ok []
  | .consFile n rest =>
    (match collect_excalidraw_files base rest with
     | .error e => .error e
     | .ok files =>
       if extension n = some "excalidraw" then
         .ok ({ name := n, path := pathJoin base n, modified := false } :: files)
       else .ok files)
  | .consDirOk n contents rest =>
    (match collect_excalidraw_files (pathJoin base n) contents with
     | .error e => .error e
     | .ok sub =>
       match collect_excalidraw_files base rest with
       | .error e => .error e
       | .ok files => .ok (sub ++ files))
  | .consDirErr _ e _ => .error e

/-- Model of `build_file_tree`: every directory yields a node with its
(sorted) children regardless of contents, every matching file yields a
leaf node; a failed `read_dir` anywhere aborts with its error. -/
def build_file_tree (base : String) : Entries → Except String (List FileTreeNode)
  | .nil => .ok []
  | .consFile n rest =>
    (match build_file_tree base rest with
     | .error e => .error e
     | .ok ns =>
       if extension n = some "excalidraw" then
         .ok (.mk n (pathJoin base n) false false none :: ns)
       else .ok ns)
  | .consDirOk n contents rest =>
    (match build_file_tree (pathJoin base n) contents with
     | .error e => .error e
     | .ok children =>
       match build_file_tree base rest with
       | .error e => .error e
       | .ok ns =>
         .ok (.mk n (pathJoin base n) true false (some (sortNodes children)) :: ns))
  | .consDirErr _ e _ => .error e

/-- Whether some subdirectory reached through readable directories is
unreadable. -/
def hasUnreadable : Entries → Bool
  | .nil => false
  | .consFile _ rest => hasUnreadable rest
  | .consDirOk _ contents rest => hasUnreadable contents || hasUnreadable rest
  | .consDirErr _ _ _ => true

/-- Whether a matching (`.excalidraw`) file occurs anywhere in the
listing, through readable directories. -/
def hasMatchDeep : Entries → Bool
  | .nil => false
  | .consFile n rest =>
    (extension n = some "excalidraw" : Bool) || hasMatchDeep rest
  | .consDirOk _ contents rest => hasMatchDeep contents || hasMatchDeep rest
  | .consDirErr _ _ rest => hasMatchDeep rest

/-- Names of the directory entries at the top level of a listing. -/
def topDirNames : Entries → List String
  | .nil => []
  | .consFile _ rest => topDirNames rest
  | .consDirOk n _ rest => n :: topDirNames rest
  | .consDirErr n _ rest => n :: topDirNames rest

/-- Names of the matching files at the top level of a listing. -/
def topMatchFileNames : Entries → List String
  | .nil => []
  | .consFile n rest =>
    if extension n = some "excalidraw" then n :: topMatchFileNames rest
    else topMatchFileNames rest
  | .consDirOk _ _ rest => topMatchFileNames rest
  | .consDirErr _ _ rest => topMatchFileNames rest

/-- Names of the directory nodes in a node list. -/
def nodeDirNames : List FileTreeNode → List String
  | [] => []
  | n :: rest =>
    if n.isDir then n.name :: nodeDirNames rest else nodeDirNames rest

/-- Names of the file nodes in a node list. -/
def nodeFileNames : List FileTreeNode → List String
  | [] => []
  | n :: rest =>
    if n.isDir then nodeFileNames rest else n.name :: nodeFileNames rest

/- ### TransactionalFileOps (lib.rs) -/

/-- Oracle for the fallible OS calls of `rename_file`, in program
order: whether reading the source succeeds, the outcome of the write
to the destination (`none` = I/O error, `some stored` = success with
`stored` the bytes actually persisted), whether the verify read of the
destination succeeds (returning the stored bytes), and whether the
final removal of the source succeeds. -/
structure RenameIO where
  readSrcOk : Bool
  writeDst : Option String
  readDstOk : Bool
  removeSrcOk : Bool

/-- The validation and destination-computation stage of `rename_file`
(everything before the first filesystem mutation): validate the old
path, check existence and extension, build the new path from the
parent and the sanitized new name, force the `.excalidraw` extension,
and reject an existing distinct destination. Returns the new path. -/
def rename_paths (canon : String → Option String) (dirs : String → Bool)
    (fs : Fs) (oldPath newName : String) : Except String String :=
  match validate_path canon oldPath none with
  | .error e => .error e
  | .ok vold =>
    if fsExists fs dirs vold = false then .error "File does not exist"
    else
      match validate_excalidraw_file vold with
      | .error e => .error e
      | .ok _ =>
        match parentDir vold with
        | none => .error "Invalid file path"
        | some par =>
          match safe_path_join par newName with
          | .error e => .error e
          | .ok np0 =>
            let np := if extension np0 ≠ some "excalidraw" then
                        with_extension np0 "excalidraw"
                      else np0
            if fsExists fs dirs np = true ∧ np ≠ oldPath then
              .error "A file with that name already exists"
            else .ok np

/-- The mutation stage of `rename_file`: read the (raw, as in the
source) old path, write to the new path, re-read and compare, remove
the destination on mismatch or failed verify read, and finally remove
the source, downgrading a failure of that last removal to success. -/
def rename_io (fs : Fs) (oldPath newPath : String) (io : RenameIO) :
    Except String String × Fs :=
  match (if io.readSrcOk then fs oldPath else none) with
  | none => (.error "Failed to read original file: io error", fs)
  | some content =>
    match io.writeDst with
    | none => (.error "Failed to create new file: io error", fs)
    | some stored =>
      let fs1 := updateFs fs newPath (some stored)
      if io.readDstOk = false then
        (.error "Failed to verify new file: io error", updateFs fs1 newPath none)
      else if stored ≠ content then
        (.error "File content verification failed", updateFs fs1 newPath none)
      else if io.removeSrcOk then (.ok newPath, updateFs fs1 oldPath none)
      else (.ok newPath, fs1)

/-- Model of the `rename_file` command. -/
def rename_file (canon : String → Option String) (dirs : String → Bool)
    (fs : Fs) (oldPath newName : String) (io : RenameIO) :
    Except String String × Fs :=
  match rename_paths canon dirs fs oldPath newName with
  | .error e => (.error e, fs)
  | .ok np => rename_io fs oldPath np io

/-- Oracle for the fallible OS calls of `move_file`: the results of the
two re-canonicalizations used by the same-path check (the source uses
`canonicalize().unwrap_or(path)`), then the read/write/verify/remove
outcomes as for `rename_file`. -/
structure MoveIO where
  canonSrc2 : Option String
  canonTgt2 : Option String
  readSrcOk : Bool
  writeDst : Option String
  readDstOk : Bool
  removeSrcOk : Bool

/-- Outcome of the validation stage of `move_file`. -/
inductive MoveStage where
  | fail (e : String) : MoveStage
  | same (src : String) : MoveStage
  | proceed (src target : String) : MoveStage

/-- The validation and target-computation stage of `move_file`:
validate the source, check existence and extension, validate the
target directory and that it is a directory, build the target path
from the source file name, return early when the canonicalized source
and target coincide, and reject an existing target. -/
def move_paths (canon : String → Option String) (dirs : String → Bool)
    (fs : Fs) (sourcePath targetDirectory : String)
    (canonSrc2 canonTgt2 : Option String) : MoveStage :=
  match validate_path canon sourcePath none with
  | .error e => .fail e
  | .ok s =>
    if fsExists fs dirs s = false then .fail "Source file does not exist"
    else
      match validate_excalidraw_file s with
      | .error e => .fail e
      | .ok _ =>
        match validate_path canon targetDirectory none with
        | .error e => .fail e
        | .ok t =>
          if dirs t = false then .fail "Target is not a directory"
          else
            match fileName s with
            | none => .fail "Invalid source file name"
            | some fn =>
              match safe_path_join t fn with
              | .error e => .fail e
              | .ok tp =>
                if canonSrc2.getD s = canonTgt2.getD tp then .same s
                else if fsExists fs dirs tp then
                  .fail "A file with that name already exists in the target directory"
                else .proceed s tp

/-- The mutation stage of `move_file`: read the validated source, write
to the target, re-read and compare (removing the target only on a
byte mismatch, as in the source), then remove the source, propagating
a failure of that removal as an error. -/
def move_io (fs : Fs) (s tp : String) (io : MoveIO) :
    Except String String × Fs :=
  match (if io.readSrcOk then fs s else none) with
  | none => (.error "Failed to read source file: io error", fs)
  | some content =>
    match io.writeDst with
    | none => (.error "Failed to write to target: io error", fs)
    | some stored =>
      let fs1 := updateFs fs tp (some stored)
      if io.readDstOk = false then
        (.error "Failed to verify target file: io error", fs1)
      else if stored ≠ content then
        (.error "File content verification failed", updateFs fs1 tp none)
      else if io.removeSrcOk then (.ok tp, updateFs fs1 s none)
      else (.error "Failed to remove source file: io error", fs1)

/-- Model of the `move_file` command. -/
def move_file (canon : String → Option String) (dirs : String → Bool)
    (fs : Fs) (sourcePath targetDirectory : String) (io : MoveIO) :
    Except String String × Fs :=
  match move_paths canon dirs fs sourcePath targetDirectory io.canonSrc2 io.canonTgt2 with
  | .fail e => (.error e, fs)
  | .same s => (.ok s, fs)
  | .proceed s tp => move_io fs s tp io

/-- Model of the `save_file` command: validate the path, the extension
and the content (via the serde parse oracle), all strictly before the
write; `writeOut` is the write outcome (`some stored` = success with
`stored` persisted at the validated path). -/
def save_file (canon : String → Option String)
    (parse : String → Option Json) (fs : Fs) (writeOut : Option String)
    (file_path content : String) : Except String Unit × Fs :=
  match validate_path canon file_path none with
  | .error e => (.error e, fs)
  | .ok v =>
    match validate_excalidraw_file v with
    | .error e => (.error e, fs)
    | .ok _ =>
      match validate_excalidraw_content (parse content) with
      | .error e => (.error e, fs)
      | .ok _ =>
        match writeOut with
        | none => (.error "io write error", fs)
        | some stored => (.ok (), updateFs fs v (some stored))

/-- The serialized default document written by `create_new_file`
(serde_json pretty printing with keys in map order). -/
def default_content : String :=
  "\x7b\n  \"appState\": \x7b\n    \"gridSize\": null,\n    \"viewBackgroundColor\": \"#ffffff\"\n  \x7d,\n  \"elements\": [],\n  \"files\": \x7b\x7d,\n  \"source\": \"ExcaliApp\",\n  \"type\": \"excalidraw\",\n  \"version\": 2\n\x7d"

/-- The collision-renumbering loop of `create_new_file`: try
`base-counter.excalidraw` joined to the raw directory, stop at the
first name for which `ex` reports no collision, give up with the
exhaustion error once the counter passes 100. The fuel argument only
bounds the recursion and is chosen large enough (101 from the entry
point) that the counter check always fires first. -/
def findUniqueAux (ex : String → Bool) (dir base : String) :
    Nat → Nat → Except String String
  | _, 0 => .error "Could not find unique file name"
  | counter, fuel + 1 =>
    let p := pathJoin dir (base ++ "-" ++ natToStr counter ++ ".excalidraw")
    if ex p = false then .ok p
    else if counter + 1 > 100 then .error "Could not find unique file name"
    else findUniqueAux ex dir base (counter + 1) fuel

/-- The uniquification step of `create_new_file` for an already
existing initial path: compute the base stem (trimming a trailing
`.excalidraw` from the file stem) and run the renumbering loop against
the raw directory path, as the source does. -/
def findUniquePath (fs : Fs) (dirs : String → Bool)
    (dirRaw path0 : String) : Except String String :=
  match fileName path0 with
  | none => .error "Invalid file name"
  | some fname =>
    let stem := (extSplit fname).1
    let base_stem := if strEndsWith stem ".excalidraw" then
                       trimEndMatches stem ".excalidraw"
                     else stem
    findUniqueAux (fun p => fsExists fs dirs p) dirRaw base_stem 1 101

/-- Model of the `create_new_file` command. `writeOut` is the outcome
of writing `default_content` (`some stored` = success persisting
`stored`); `readBackOk` is the outcome of the read-back, whose result
the source only logs: both branches return success, and the only
post-write failure is the path not existing at all. -/
def create_new_file (canon : String → Option String) (dirs : String → Bool)
    (fs : Fs) (writeOut : Option String) (readBackOk : Bool)
    (directory file_name : String) : Except String String × Fs :=
  match validate_path canon directory none with
  | .error e => (.error e, fs)
  | .ok d =>
    if dirs d = false then
      (.error ("Path is not a directory: " ++ directory), fs)
    else
      match safe_path_join d file_name with
      | .error e => (.error e, fs)
      | .ok path0 =>
        match (if fsExists fs dirs path0 then findUniquePath fs dirs directory path0
               else .ok path0) with
        | .error e => (.error e, fs)
        | .ok path =>
          match writeOut with
          | none => (.error "Failed to create file: io error", fs)
          | some stored =>
            let fs1 := updateFs fs path (some stored)
            if fsExists fs1 dirs path = false then
              (.error "File creation verification failed", fs1)
            else if readBackOk then (.ok path, fs1)
            else (.ok path, fs1)

/-! ## Claims -/

/-- C2 counterexample: the suspicious-pattern check of `validate_path`
is a substring search on the canonical path string, so a path whose
last component merely contains `..` inside a longer name is rejected,
although none of its components equals `..` or `~`. The
canonicalization oracle is the identity, as for an existing path that
is already in canonical form. -/
theorem C2_counterexample :
    validate_path (fun p => some p) "/home/user/notes..final.excalidraw" none
      = .error "Path contains suspicious patterns" ∧
    (slashParts "/home/user/notes..final.excalidraw").contains ".." = false ∧
    (slashParts "/home/user/notes..final.excalidraw").contains "~" = false := by
  refine ⟨rfl, by decide, by decide⟩

/-- C2 (amended): `validate_path` raises the suspicious-patterns error
exactly when the canonicalized path string contains `..` or `~` as a
substring anywhere — substring search, not component-wise inspection —
so legitimately named files such as `notes..final.excalidraw` are also
rejected. -/
theorem C2_amended_claim (canon : String → Option String) (path c : String)
    (hc : canon path = some c) :
    validate_path canon path none = .error "Path contains suspicious patterns" ↔
      (containsSub c ".." || containsSub c "~") = true := by
  unfold validate_path
  rw [hc]
  by_cases h : (containsSub c ".." || containsSub c "~") = true
  · simp [h]
  · simp [h]

/-- C2 witness: the amended theorem applied to a concrete path with a
double dot inside a component. -/
theorem C2_witness :
    validate_path (fun p => some p) "/data/a..b.excalidraw" none
      = .error "Path contains suspicious patterns" :=
  (C2_amended_claim (fun p => some p) "/data/a..b.excalidraw"
    "/data/a..b.excalidraw" rfl).mpr (by decide)

/-- C6 counterexample: for a relative path with no `..` or `~`
component whose canonicalization fails (as for a not-yet-existing
file), `validate_path` does not accept the path as-is: it fails with
the canonicalization error. -/
theorem C6_counterexample :
    validate_path (fun _ => none) "newfile.excalidraw" none
      = .error "Failed to canonicalize path: io error" ∧
    validate_path (fun _ => none) "newfile.excalidraw" none
      ≠ .ok "newfile.excalidraw" ∧
    (slashParts "newfile.excalidraw").contains ".." = false ∧
    (slashParts "newfile.excalidraw").contains "~" = false := by
  refine ⟨rfl, by simp [validate_path], by decide, by decide⟩

/-- C6 (amended): whenever canonicalization of the input fails,
`validate_path` fails with the path-resolution error, for every input
path and sandbox argument; there is no accept-as-is fallback for
relative traversal-free paths. -/
theorem C6_amended_claim (canon : String → Option String)
    (path : String) (base : Option String) (h : canon path = none) :
    validate_path canon path base
      = .error "Failed to canonicalize path: io error" := by
  unfold validate_path
  rw [h]

/-- C6 witness: the amended theorem applied to a concrete relative
path whose canonicalization fails. -/
theorem C6_witness :
    validate_path (fun _ => none) "drawing.excalidraw" none
      = .error "Failed to canonicalize path: io error" :=
  C6_amended_claim (fun _ => none) "drawing.excalidraw" none rfl

/-- C9 (confirmed): `save_file` performs path validation, extension
check and content schema validation strictly before the write, so when
any of the three fails the command returns that validation error and
the filesystem — in particular the file at the target path — is
unchanged. -/
theorem C9_claim :
    ∀ (canon : String → Option String) (parse : String → Option Json)
      (fs : Fs) (writeOut : Option String) (fp content : String),
      ((∃ e, validate_path canon fp none = .error e) ∨
       (∃ v e, validate_path canon fp none = .ok v ∧
          validate_excalidraw_file v = .error e) ∨
       (∃ v e, validate_path canon fp none = .ok v ∧
          validate_excalidraw_file v = .ok () ∧
          validate_excalidraw_content (parse content) = .error e)) →
      (∃ e, (save_file canon parse fs writeOut fp content).1 = .error e) ∧
      (save_file canon parse fs writeOut fp content).2 = fs := by
  intro canon parse fs writeOut fp content h
  rcases h with ⟨e, hv⟩ | ⟨v, e, hv, hx⟩ | ⟨v, e, hv, hx, hct⟩
  · simp only [save_file, hv]
    exact ⟨⟨e, rfl⟩, trivial⟩
  · simp only [save_file, hv, hx]
    exact ⟨⟨e, rfl⟩, trivial⟩
  · simp only [save_file, hv, hx, hct]
    exact ⟨⟨e, rfl⟩, trivial⟩

/-- C9 witness: a write request to a path with the wrong extension
fails with the extension error and leaves the filesystem untouched. -/
theorem C9_witness :
    (∃ e, (save_file (fun p => some p) (fun _ => none)
      (fun _ => none) (some "data") "/a/b.txt" "x").1 = .error e) ∧
    (save_file (fun p => some p) (fun _ => none)
      (fun _ => none) (some "data") "/a/b.txt" "x").2 = (fun _ => none) :=
  C9_claim (fun p => some p) (fun _ => none) (fun _ => none) (some "data")
    "/a/b.txt" "x"
    (Or.inr (Or.inl ⟨"/a/b.txt",
      "Invalid file extension: expected .excalidraw, got .txt", rfl, rfl⟩))

/-- C10 (confirmed): when the source passes validation, the target
directory is a directory, and the canonicalized source path equals the
canonicalized computed target path, `move_file` returns the source
path and the filesystem is unchanged — the same-directory move is a
no-op success, taken before any read, write or delete. -/
theorem C10_claim :
    ∀ (canon : String → Option String) (dirs : String → Bool) (fs : Fs)
      (src tgt : String) (io : MoveIO) (s t fn : String),
      canon src = some s →
      (containsSub s ".." || containsSub s "~") = false →
      fsExists fs dirs s = true →
      extension s = some "excalidraw" →
      canon tgt = some t →
      (containsSub t ".." || containsSub t "~") = false →
      dirs t = true →
      fileName s = some fn →
      sanitizeName fn ≠ "" →
      io.canonSrc2.getD s = io.canonTgt2.getD (pathJoin t (sanitizeName fn)) →
      move_file canon dirs fs src tgt io = (.ok s, fs) := by
  intro canon dirs fs src tgt io s t fn hcs hss hex hxt hct hst hdt hfn hcl heq
  simp [move_file, move_paths, validate_path, validate_excalidraw_file,
    safe_path_join, hcs, hct, hss, hst, hex, hxt, hdt, hfn, hcl, heq]

/-- C10 witness: moving a file into the directory it already resides
in returns the source path and changes nothing. -/
theorem C10_witness :
    move_file (fun p => some p) (fun p => p == "/r")
      (fun p => if p = "/r/a.excalidraw" then some "C" else none)
      "/r/a.excalidraw" "/r"
      ⟨some "/r/a.excalidraw", some "/r/a.excalidraw", true, some "C", true, true⟩
      = (.ok "/r/a.excalidraw",
         fun p => if p = "/r/a.excalidraw" then some "C" else none) :=
  C10_claim (fun p => some p) (fun p => p == "/r")
    (fun p => if p = "/r/a.excalidraw" then some "C" else none)
    "/r/a.excalidraw" "/r"
    ⟨some "/r/a.excalidraw", some "/r/a.excalidraw", true, some "C", true, true⟩
    "/r/a.excalidraw" "/r" "a.excalidraw"
    rfl (by decide) (by decide) (by decide) rfl (by decide) (by decide)
    (by decide) (by decide) (by decide)

/-- Helper for C8: when every numbered variant from the current
counter up to 100 collides, the renumbering loop reaches the bound and
fails with the exhaustion error. -/
theorem findUniqueAux_exhausted (ex : String → Bool) (dir base : String)
    (h : ∀ i, 1 ≤ i → i ≤ 100 →
      ex (pathJoin dir (base ++ "-" ++ natToStr i ++ ".excalidraw")) = true) :
    ∀ (fuel counter : Nat), 1 ≤ counter → counter ≤ 100 →
      findUniqueAux ex dir base counter fuel
        = .error "Could not find unique file name" := by
  intro fuel
  induction fuel with
  | zero => intro counter _ _; rfl
  | succ fuel ih =>
    intro counter h1 hcle
    simp only [findUniqueAux, h counter h1 hcle]
    by_cases hc : counter + 1 > 100
    · simp [hc]
    · simp only [hc, if_false, Bool.true_eq_false, reduceIte]
      exact ih (counter + 1) (by omega) (by omega)

/-- C8 (confirmed): the collision-renumbering loop of
`create_new_file` always terminates with either a fresh numbered path
or the fixed exhaustion error, and when the existence oracle reports a
collision for every variant `base-1` … `base-100` the loop started by
`create_new_file` (counter 1, enough fuel for the 100 attempts) fails
with the exhaustion error after the fixed bound instead of looping
forever. -/
theorem C8_claim :
    (∀ (ex : String → Bool) (dir base : String) (counter fuel : Nat),
       (∃ p, findUniqueAux ex dir base counter fuel = .ok p) ∨
       findUniqueAux ex dir base counter fuel
         = .error "Could not find unique file name") ∧
    (∀ (ex : String → Bool) (dir base : String),
       (∀ i, 1 ≤ i → i ≤ 100 →
         ex (pathJoin dir (base ++ "-" ++ natToStr i ++ ".excalidraw")) = true) →
       findUniqueAux ex dir base 1 101
         = .error "Could not find unique file name") := by
  constructor
  · intro ex dir base counter fuel
    induction fuel generalizing counter with
    | zero => exact Or.inr rfl
    | succ fuel ih =>
      by_cases hx : ex (pathJoin dir (base ++ "-" ++ natToStr counter ++ ".excalidraw")) = false
      · exact Or.inl ⟨pathJoin dir (base ++ "-" ++ natToStr counter ++ ".excalidraw"),
          by simp only [findUniqueAux, hx, reduceIte]⟩
      · rw [Bool.not_eq_false] at hx
        by_cases hc : counter + 1 > 100
        · refine Or.inr ?_
          simp [findUniqueAux, hx, hc]
        · rcases ih (counter + 1) with ⟨p, hp⟩ | he
          · refine Or.inl ⟨p, ?_⟩
            simp only [findUniqueAux, hx, Bool.true_eq_false, reduceIte, hc,
              if_false]
            exact hp
          · refine Or.inr ?_
            simp only [findUniqueAux, hx, Bool.true_eq_false, reduceIte, hc,
              if_false]
            exact he
  · intro ex dir base h
    exact findUniqueAux_exhausted ex dir base h 101 1 (by omega) (by omega)


/-- C8 witness: with every candidate name reported as existing, the
loop fails with the exhaustion error. -/
theorem C8_witness :
    findUniqueAux (fun _ => true) "/r" "note" 1 101
      = .error "Could not find unique file name" :=
  C8_claim.2 (fun _ => true) "/r" "note" (fun _ _ _ => rfl)

/-- C4 counterexample: `create_new_file` reports success although the
write persisted bytes different from `default_content` and the
read-back even failed; no `VerificationFailed` error is raised for the
differing round-trip. -/
theorem C4_counterexample :
    (create_new_file (fun p => some p) (fun p => p == "/r") (fun _ => none)
      (some "garbage") false "/r" "note.excalidraw").1
      = .ok "/r/note.excalidraw" ∧
    (create_new_file (fun p => some p) (fun p => p == "/r") (fun _ => none)
      (some "garbage") false "/r" "note.excalidraw").2 "/r/note.excalidraw"
      = some "garbage" ∧
    "garbage" ≠ default_content := by
  refine ⟨rfl, rfl, by decide⟩

/-- C4 (amended): after a successful write, `create_new_file` only
checks that some file exists at the path; it never compares the
read-back bytes with what was written, and it returns success whatever
bytes were persisted and whether or not the read-back succeeded (a
failed read-back is only logged as a warning). -/
theorem C4_amended_claim
    (canon : String → Option String) (dirs : String → Bool) (fs : Fs)
    (stored : String) (readBackOk : Bool) (directory file_name d path0 : String)
    (hc : canon directory = some d)
    (hs : (containsSub d ".." || containsSub d "~") = false)
    (hd : dirs d = true)
    (hj : safe_path_join d file_name = .ok path0)
    (hex : fsExists fs dirs path0 = false) :
    create_new_file canon dirs fs (some stored) readBackOk directory file_name
      = (.ok path0, updateFs fs path0 (some stored)) := by
  simp only [create_new_file, validate_path, hc, hs, Bool.false_eq_true,
    reduceIte, hd, hj, hex]
  simp [fsExists, updateFs]

/-- C4 witness: the amended theorem applied to a concrete creation
whose write persists corrupted bytes and whose read-back succeeds. -/
theorem C4_witness :
    create_new_file (fun p => some p) (fun p => p == "/work")
      (fun _ => none) (some "corrupted bytes") true "/work" "draft.excalidraw"
      = (.ok "/work/draft.excalidraw",
         updateFs (fun _ => none) "/work/draft.excalidraw" (some "corrupted bytes")) :=
  C4_amended_claim (fun p => some p) (fun p => p == "/work") (fun _ => none)
    "corrupted bytes" true "/work" "draft.excalidraw" "/work" "/work/draft.excalidraw"
    rfl (by decide) (by decide) rfl (by decide)

/-- C3 counterexample: a listing with one readable matching file and
one unreadable subdirectory makes the whole scan fail with the read
error of that subdirectory — the matching file from the readable part
is not returned, and the tree walk aborts the same way. -/
theorem C3_counterexample :
    collect_excalidraw_files "/r"
      (.consFile "a.excalidraw"
        (.consDirErr "locked" "Permission denied (os error 13)" .nil))
      = .error "Permission denied (os error 13)" ∧
    build_file_tree "/r"
      (.consFile "a.excalidraw"
        (.consDirErr "locked" "Permission denied (os error 13)" .nil))
      = .error "Permission denied (os error 13)" ∧
    extension "a.excalidraw" = some "excalidraw" := by
  refine ⟨rfl, rfl, rfl⟩

/-- C3 (amended): whenever any subdirectory reached through readable
directories is unreadable, both the flat scan and the tree walk abort
with an error — no partial file list and no warning channel exist;
conversely, with every directory readable both walks succeed. -/
theorem C3_amended_claim :
    ∀ (base : String) (es : Entries),
      (hasUnreadable es = true →
        (∃ e, collect_excalidraw_files base es = .error e) ∧
        (∃ e, build_file_tree base es = .error e)) ∧
      (hasUnreadable es = false →
        (∃ fl, collect_excalidraw_files base es = .ok fl) ∧
        (∃ ns, build_file_tree base es = .ok ns)) := by
  intro base es
  induction es generalizing base with
  | nil =>
    exact ⟨fun h => by simp [hasUnreadable] at h,
           fun _ => ⟨⟨[], rfl⟩, ⟨[], rfl⟩⟩⟩
  | consFile n rest ih =>
    constructor
    · intro h
      rw [hasUnreadable] at h
      obtain ⟨⟨e1, hc⟩, ⟨e2, hb⟩⟩ := (ih base).1 h
      exact ⟨⟨e1, by simp only [collect_excalidraw_files, hc]⟩,
             ⟨e2, by simp only [build_file_tree, hb]⟩⟩
    · intro h
      rw [hasUnreadable] at h
      obtain ⟨⟨fl, hc⟩, ⟨ns, hb⟩⟩ := (ih base).2 h
      constructor
      · by_cases hx : extension n = some "excalidraw"
        · exact ⟨{ name := n, path := pathJoin base n, modified := false } :: fl,
            by simp only [collect_excalidraw_files, hc, hx, reduceIte]⟩
        · exact ⟨fl, by simp only [collect_excalidraw_files, hc, hx, reduceIte]⟩
      · by_cases hx : extension n = some "excalidraw"
        · exact ⟨.mk n (pathJoin base n) false false none :: ns,
            by simp only [build_file_tree, hb, hx, reduceIte]⟩
        · exact ⟨ns, by simp only [build_file_tree, hb, hx, reduceIte]⟩
  | consDirOk n contents rest ihc ihr =>
    constructor
    · intro h
      rw [hasUnreadable] at h
      simp only [Bool.or_eq_true] at h
      rcases h with hcs | hrs
      · obtain ⟨⟨e1, hc⟩, ⟨e2, hb⟩⟩ := (ihc (pathJoin base n)).1 hcs
        exact ⟨⟨e1, by simp only [collect_excalidraw_files, hc]⟩,
               ⟨e2, by simp only [build_file_tree, hb]⟩⟩
      · obtain ⟨⟨e1, hc⟩, ⟨e2, hb⟩⟩ := (ihr base).1 hrs
        constructor
        · cases hcc : collect_excalidraw_files (pathJoin base n) contents with
          | error ec => exact ⟨ec, by simp only [collect_excalidraw_files, hcc]⟩
          | ok sub => exact ⟨e1, by simp only [collect_excalidraw_files, hcc, hc]⟩
        · cases hbc : build_file_tree (pathJoin base n) contents with
          | error ec => exact ⟨ec, by simp only [build_file_tree, hbc]⟩
          | ok children => exact ⟨e2, by simp only [build_file_tree, hbc, hb]⟩
    · intro h
      rw [hasUnreadable] at h
      simp only [Bool.or_eq_false_iff] at h
      obtain ⟨⟨sub, hcc⟩, ⟨children, hbc⟩⟩ := (ihc (pathJoin base n)).2 h.1
      obtain ⟨⟨fl, hc⟩, ⟨ns, hb⟩⟩ := (ihr base).2 h.2
      exact ⟨⟨sub ++ fl, by simp only [collect_excalidraw_files, hcc, hc]⟩,
             ⟨.mk n (pathJoin base n) true false (some (sortNodes children)) :: ns,
              by simp only [build_file_tree, hbc, hb]⟩⟩
  | consDirErr n e rest ih =>
    exact ⟨fun _ => ⟨⟨e, rfl⟩, ⟨e, rfl⟩⟩,
           fun h => by simp [hasUnreadable] at h⟩

/-- C3 witness: the amended theorem applied to a concrete listing with
an unreadable subdirectory next to a readable matching file. -/
theorem C3_witness :
    (∃ e, collect_excalidraw_files "/w"
      (.consFile "b.excalidraw" (.consDirErr "priv" "locked" .nil))
      = .error e) ∧
    (∃ e, build_file_tree "/w"
      (.consFile "b.excalidraw" (.consDirErr "priv" "locked" .nil))
      = .error e) :=
  (C3_amended_claim "/w"
    (.consFile "b.excalidraw" (.consDirErr "priv" "locked" .nil))).1 rfl

/-- C7 counterexample: a directory containing only a non-matching file
— so with no matching descendant anywhere in its subtree — still
appears as a node in the output of `build_file_tree` (with empty
children): the walk does not prune such directories. -/
theorem C7_counterexample :
    hasMatchDeep (.consFile "x.txt" .nil) = false ∧
    build_file_tree "/r" (.consDirOk "d" (.consFile "x.txt" .nil) .nil)
      = .ok [.mk "d" "/r/d" true false (some [])] := by
  refine ⟨rfl, rfl⟩

/-- C7 (amended): `build_file_tree` implements inclusion policy (a):
at every level of a successful walk, the directory nodes of the output
are exactly the directory entries of the listing, in order and
regardless of whether their subtrees contain any matching file, and
the file nodes are exactly the matching files of the listing. In
particular every ancestor directory of a matching file is present, but
so is every other directory. -/
theorem C7_amended_claim :
    ∀ (base : String) (es : Entries) (ns : List FileTreeNode),
      build_file_tree base es = .ok ns →
      nodeDirNames ns = topDirNames es ∧
      nodeFileNames ns = topMatchFileNames es := by
  intro base es
  induction es generalizing base with
  | nil =>
    intro ns h
    simp only [build_file_tree, Except.ok.injEq] at h
    subst h
    exact ⟨rfl, rfl⟩
  | consFile n rest ih =>
    intro ns h
    cases hbr : build_file_tree base rest with
    | error e =>
      simp only [build_file_tree, hbr] at h
      exact Except.noConfusion h
    | ok ns' =>
      obtain ⟨hd, hf⟩ := ih base ns' hbr
      simp only [build_file_tree, hbr] at h
      by_cases hx : extension n = some "excalidraw"
      · simp only [hx, reduceIte, Except.ok.injEq] at h
        subst h
        simp only [nodeDirNames, nodeFileNames, FileTreeNode.isDir,
          FileTreeNode.name, topDirNames, topMatchFileNames, hx, reduceIte,
          Bool.false_eq_true, hd, hf]
        exact ⟨trivial, trivial⟩
      · simp only [hx, reduceIte, Except.ok.injEq] at h
        subst h
        simp only [topDirNames, topMatchFileNames, hx, reduceIte, hd, hf]
        exact ⟨trivial, trivial⟩
  | consDirOk n contents rest ihc ihr =>
    intro ns h
    cases hbc : build_file_tree (pathJoin base n) contents with
    | error e =>
      simp only [build_file_tree, hbc] at h
      exact Except.noConfusion h
    | ok children =>
      cases hbr : build_file_tree base rest with
      | error e =>
        simp only [build_file_tree, hbc, hbr] at h
        exact Except.noConfusion h
      | ok ns' =>
        obtain ⟨hd, hf⟩ := ihr base ns' hbr
        simp only [build_file_tree, hbc, hbr, Except.ok.injEq] at h
        subst h
        simp only [nodeDirNames, nodeFileNames, FileTreeNode.isDir,
          FileTreeNode.name, topDirNames, topMatchFileNames, reduceIte, hd, hf]
        exact ⟨trivial, trivial⟩
  | consDirErr n e rest ih =>
    intro ns h
    simp only [build_file_tree] at h
    exact Except.noConfusion h

/-- C7 witness: the amended theorem applied to a concrete listing with
a matchless directory and a matching file. -/
theorem C7_witness :
    nodeDirNames [FileTreeNode.mk "d" "/w/d" true false (some []),
                  FileTreeNode.mk "a.excalidraw" "/w/a.excalidraw" false false none]
      = topDirNames (.consDirOk "d" (.consFile "x.txt" .nil)
          (.consFile "a.excalidraw" .nil)) ∧
    nodeFileNames [FileTreeNode.mk "d" "/w/d" true false (some []),
                   FileTreeNode.mk "a.excalidraw" "/w/a.excalidraw" false false none]
      = topMatchFileNames (.consDirOk "d" (.consFile "x.txt" .nil)
          (.consFile "a.excalidraw" .nil)) :=
  C7_amended_claim "/w"
    (.consDirOk "d" (.consFile "x.txt" .nil) (.consFile "a.excalidraw" .nil))
    [FileTreeNode.mk "d" "/w/d" true false (some []),
     FileTreeNode.mk "a.excalidraw" "/w/a.excalidraw" false false none]
    rfl

/-- C1 counterexample: renaming a file to its own name (which the
source permits: the destination-exists check is skipped when the
computed destination equals the old path) with a write that persists
corrupted bytes makes verification fail; the cleanup then deletes the
destination, which is the source itself, so after the
`VerificationFailed` error the source file no longer exists at all —
contradicting the claim that the untouched source remains the sole
intact copy after any failed rename. -/
theorem C1_counterexample :
    (rename_file (fun p => some p) (fun _ => false)
      (fun p => if p = "/d/a.excalidraw" then some "C" else none)
      "/d/a.excalidraw" "a" ⟨true, some "X", true, true⟩).1
      = .error "File content verification failed" ∧
    (fun p => if p = "/d/a.excalidraw" then some "C" else none) "/d/a.excalidraw"
      = some "C" ∧
    (rename_file (fun p => some p) (fun _ => false)
      (fun p => if p = "/d/a.excalidraw" then some "C" else none)
      "/d/a.excalidraw" "a" ⟨true, some "X", true, true⟩).2 "/d/a.excalidraw"
      = none := by
  refine ⟨rfl, rfl, rfl⟩

/-- C1 (amended): for both rename and move, when the byte-for-byte
verification of the freshly written destination fails and the computed
destination path differs from the source path, the operation deletes
the destination, returns the `VerificationFailed` error, and the
source still holds its original content. The proviso is forced: rename
reaches verification with destination equal to source when a file is
renamed to its own name, and then the cleanup deletes the only copy. -/
theorem C1_amended_claim :
    (∀ (canon : String → Option String) (dirs : String → Bool) (fs : Fs)
       (oldPath newName : String) (io : RenameIO) (np : String),
       rename_paths canon dirs fs oldPath newName = .ok np →
       np ≠ oldPath →
       (rename_file canon dirs fs oldPath newName io).1
         = .error "File content verification failed" →
       (rename_file canon dirs fs oldPath newName io).2 np = none ∧
       (rename_file canon dirs fs oldPath newName io).2 oldPath = fs oldPath) ∧
    (∀ (canon : String → Option String) (dirs : String → Bool) (fs : Fs)
       (src tgt : String) (io : MoveIO) (s tp : String),
       move_paths canon dirs fs src tgt io.canonSrc2 io.canonTgt2
         = .proceed s tp →
       tp ≠ s →
       (move_file canon dirs fs src tgt io).1
         = .error "File content verification failed" →
       (move_file canon dirs fs src tgt io).2 tp = none ∧
       (move_file canon dirs fs src tgt io).2 s = fs s) := by
  constructor
  · intro canon dirs fs oldPath newName io np hp hne h
    have hre : rename_file canon dirs fs oldPath newName io
        = rename_io fs oldPath np io := by
      simp only [rename_file, hp]
    rw [hre] at h ⊢
    cases hr : (if io.readSrcOk then fs oldPath else none) with
    | none =>
      simp only [rename_io, hr] at h
      exact absurd (Except.error.inj h) (by decide)
    | some content =>
      cases hw : io.writeDst with
      | none =>
        simp only [rename_io, hr, hw] at h
        exact absurd (Except.error.inj h) (by decide)
      | some stored =>
        by_cases hd : io.readDstOk = false
        · simp only [rename_io, hr, hw, hd, reduceIte] at h
          exact absurd (Except.error.inj h) (by decide)
        · rw [Bool.not_eq_false] at hd
          by_cases hsc : stored = content
          · by_cases hrm : io.removeSrcOk
            · simp [rename_io, hr, hw, hd, hsc, hrm] at h
            · simp [rename_io, hr, hw, hd, hsc, hrm] at h
          · have hop : oldPath ≠ np := fun hh => hne hh.symm
            constructor
            · simp [rename_io, hr, hw, hd, hsc, updateFs]
            · simp [rename_io, hr, hw, hd, hsc, updateFs, hop]
  · intro canon dirs fs src tgt io s tp hp hne h
    have hmv : move_file canon dirs fs src tgt io = move_io fs s tp io := by
      simp only [move_file, hp]
    rw [hmv] at h ⊢
    cases hr : (if io.readSrcOk then fs s else none) with
    | none =>
      simp only [move_io, hr] at h
      exact absurd (Except.error.inj h) (by decide)
    | some content =>
      cases hw : io.writeDst with
      | none =>
        simp only [move_io, hr, hw] at h
        exact absurd (Except.error.inj h) (by decide)
      | some stored =>
        by_cases hd : io.readDstOk = false
        · simp only [move_io, hr, hw, hd, reduceIte] at h
          exact absurd (Except.error.inj h) (by decide)
        · rw [Bool.not_eq_false] at hd
          by_cases hsc : stored = content
          · by_cases hrm : io.removeSrcOk
            · simp [move_io, hr, hw, hd, hsc, hrm] at h
            · simp [move_io, hr, hw, hd, hsc, hrm] at h
          · have hop : s ≠ tp := fun hh => hne hh.symm
            constructor
            · simp [move_io, hr, hw, hd, hsc, updateFs]
            · simp [move_io, hr, hw, hd, hsc, updateFs, hop]

/-- C1 witness: the amended theorem applied to a concrete failed
rename (distinct destination) and a concrete failed move: in both runs
the destination is gone and the source keeps its original bytes. -/
theorem C1_witness :
    ((rename_file (fun p => some p) (fun _ => false)
        (fun p => if p = "/d/a.excalidraw" then some "C" else none)
        "/d/a.excalidraw" "b" ⟨true, some "X", true, true⟩).2 "/d/b.excalidraw"
        = none ∧
     (rename_file (fun p => some p) (fun _ => false)
        (fun p => if p = "/d/a.excalidraw" then some "C" else none)
        "/d/a.excalidraw" "b" ⟨true, some "X", true, true⟩).2 "/d/a.excalidraw"
        = (fun p => if p = "/d/a.excalidraw" then some "C" else none)
            "/d/a.excalidraw") ∧
    ((move_file (fun p => some p) (fun p => p == "/e")
        (fun p => if p = "/d/a.excalidraw" then some "C" else none)
        "/d/a.excalidraw" "/e" ⟨none, none, true, some "X", true, true⟩).2
        "/e/a.excalidraw" = none ∧
     (move_file (fun p => some p) (fun p => p == "/e")
        (fun p => if p = "/d/a.excalidraw" then some "C" else none)
        "/d/a.excalidraw" "/e" ⟨none, none, true, some "X", true, true⟩).2
        "/d/a.excalidraw"
        = (fun p => if p = "/d/a.excalidraw" then some "C" else none)
            "/d/a.excalidraw") :=
  ⟨C1_amended_claim.1 (fun p => some p) (fun _ => false)
      (fun p => if p = "/d/a.excalidraw" then some "C" else none)
      "/d/a.excalidraw" "b" ⟨true, some "X", true, true⟩ "/d/b.excalidraw"
      rfl (by decide) rfl,
   C1_amended_claim.2 (fun p => some p) (fun p => p == "/e")
      (fun p => if p = "/d/a.excalidraw" then some "C" else none)
      "/d/a.excalidraw" "/e" ⟨none, none, true, some "X", true, true⟩
      "/d/a.excalidraw" "/e/a.excalidraw" rfl (by decide) rfl⟩

/-- C5 counterexample: a move whose destination was written and
byte-for-byte verified but whose source deletion fails returns an
error, not a success with the new path — `move_file` propagates the
deletion failure with `?` instead of downgrading it to a warning. -/
theorem C5_counterexample :
    (move_file (fun p => some p) (fun p => p == "/e")
      (fun p => if p = "/d/a.excalidraw" then some "C" else none)
      "/d/a.excalidraw" "/e" ⟨none, none, true, some "C", true, false⟩).1
      = .error "Failed to remove source file: io error" ∧
    (move_file (fun p => some p) (fun p => p == "/e")
      (fun p => if p = "/d/a.excalidraw" then some "C" else none)
      "/d/a.excalidraw" "/e" ⟨none, none, true, some "C", true, false⟩).2
      "/e/a.excalidraw" = some "C" := by
  refine ⟨rfl, rfl⟩

/-- C5 (amended): only `rename_file` downgrades a failed deletion of
the source after a successful verified copy to a success carrying the
new path; `move_file` in the same situation returns the removal error
(the verified destination and the stale source both remain on disk). -/
theorem C5_amended_claim :
    (∀ (canon : String → Option String) (dirs : String → Bool) (fs : Fs)
       (oldPath newName : String) (io : RenameIO) (np c : String),
       rename_paths canon dirs fs oldPath newName = .ok np →
       io.readSrcOk = true → fs oldPath = some c →
       io.writeDst = some c → io.readDstOk = true → io.removeSrcOk = false →
       rename_file canon dirs fs oldPath newName io
         = (.ok np, updateFs fs np (some c))) ∧
    (∀ (canon : String → Option String) (dirs : String → Bool) (fs : Fs)
       (src tgt : String) (io : MoveIO) (s tp c : String),
       move_paths canon dirs fs src tgt io.canonSrc2 io.canonTgt2
         = .proceed s tp →
       io.readSrcOk = true → fs s = some c →
       io.writeDst = some c → io.readDstOk = true → io.removeSrcOk = false →
       move_file canon dirs fs src tgt io
         = (.error "Failed to remove source file: io error",
            updateFs fs tp (some c))) := by
  constructor
  · intro canon dirs fs oldPath newName io np c hp hrs hfs hw hrd hrm
    simp only [rename_file, hp, rename_io, hrs, reduceIte, hfs, hw, hrd,
      Bool.true_eq_false, ne_eq, not_true_eq_false, hrm]
    simp
  · intro canon dirs fs src tgt io s tp c hp hrs hfs hw hrd hrm
    simp only [move_file, hp, move_io, hrs, reduceIte, hfs, hw, hrd,
      Bool.true_eq_false, ne_eq, not_true_eq_false, hrm]
    simp

/-- C5 witness: the amended theorem applied to one concrete rename and
one concrete move, each with a verified copy and a failing source
deletion: rename succeeds, move errors. -/
theorem C5_witness :
    rename_file (fun p => some p) (fun _ => false)
      (fun p => if p = "/d/a.excalidraw" then some "C" else none)
      "/d/a.excalidraw" "b" ⟨true, some "C", true, false⟩
      = (.ok "/d/b.excalidraw",
         updateFs (fun p => if p = "/d/a.excalidraw" then some "C" else none)
           "/d/b.excalidraw" (some "C")) ∧
    move_file (fun p => some p) (fun p => p == "/e")
      (fun p => if p = "/d/a.excalidraw" then some "C" else none)
      "/d/a.excalidraw" "/e" ⟨none, none, true, some "C", true, false⟩
      = (.error "Failed to remove source file: io error",
         updateFs (fun p => if p = "/d/a.excalidraw" then some "C" else none)
           "/e/a.excalidraw" (some "C")) :=
  ⟨C5_amended_claim.1 (fun p => some p) (fun _ => false)
      (fun p => if p = "/d/a.excalidraw" then some "C" else none)
      "/d/a.excalidraw" "b" ⟨true, some "C", true, false⟩ "/d/b.excalidraw" "C"
      rfl rfl (by decide) rfl rfl rfl,
   C5_amended_claim.2 (fun p => some p) (fun p => p == "/e")
      (fun p => if p = "/d/a.excalidraw" then some "C" else none)
      "/d/a.excalidraw" "/e" ⟨none, none, true, some "C", true, false⟩
      "/d/a.excalidraw" "/e/a.excalidraw" "C"
      rfl rfl (by decide) rfl rfl rfl⟩
